import Mathlib

/-!
# gantry: the remote deployment workflow

A shallow embedding of `src/main.go`.  Every operation of the program is a
straight-line pipeline over external collaborators (the droplet listing, and
the subprocesses `git`, `ssh` and `scp`).  A run is modelled as the value the
Go function returns together with the list of events it produced: the
collaborator calls, in order, and the lines written to standard output.

Strings are sequences of characters.  The separators the program splits on
(tab, space, colon, slash, dot) are ASCII, and every slice the program takes
removes a suffix that is itself a string, so positions counted in characters
and positions counted in bytes select the same text.
-/

namespace Gantry

/-! ## Library functions used by the program -/

/-- Pieces of a character list between occurrences of `sep`; the empty list
gives one empty piece, as `strings.Split` does for a non-empty separator. -/
def splitChars (sep : Char) : List Char → List (List Char)
  | [] => [[]]
  | c :: cs =>
    if c = sep then [] :: splitChars sep cs
    else (c :: (splitChars sep cs).headD []) :: (splitChars sep cs).tail

/-- Go `strings.Split(s, sep)` for the one-character separators the program uses. -/
def Split (s : String) (sep : Char) : List String :=
  (splitChars sep s.data).map String.mk

/-- Go `strings.Join(elems, sep)`: the first element, then each later element
preceded by the separator. -/
def Join (elems : List String) (sep : String) : String :=
  match elems with
  | [] => ""
  | e :: es => es.foldl (fun b s => b ++ sep ++ s) e

/-- Last path element of a character list: trailing slashes are dropped, then
everything up to and including the last remaining slash. -/
def lastElement (p : List Char) : List Char :=
  ((p.reverse.dropWhile (fun c => c = '/')).takeWhile (fun c => c ≠ '/')).reverse

/-- Go `filepath.Base(path)` with separator `/`. -/
def Base (path : String) : String :=
  if path.data = [] then "."
  else if lastElement path.data = [] then "/"
  else String.mk (lastElement path.data)

/-- Scan of `filepath.Ext` from the end of the path: `rev` is what is still to
be read, last character first, and `acc` is the text already passed. -/
def extScan : List Char → List Char → List Char
  | [], _ => []
  | c :: rev, acc =>
    if c = '/' then []
    else if c = '.' then c :: acc
    else extScan rev (c :: acc)

/-- Go `filepath.Ext(path)`: the suffix starting at the last dot of the last
path element, or the empty string. -/
def Ext (path : String) : String :=
  String.mk (extScan path.data.reverse [])

/-- Go slice `s[:len(s)-n]`; `none` stands for the run-time panic when the
bound is negative. -/
def dropSuffixLen (s : String) (n : Nat) : Option String :=
  if n ≤ s.data.length then some (String.mk (s.data.take (s.data.length - n))) else none

/-! ## Data model -/

/-- Go `error` values the program handles. -/
inductive Error where
  /-- the sentinel `cmd.ErrInvalidArgs` -/
  | ErrInvalidArgs
  /-- a value made by `errors.New(text)` -/
  | New (text : String)
  /-- an error returned by a collaborator -/
  | Collab (text : String)
  deriving DecidableEq

/-- A droplet record of the listing, with the two fields the program reads. -/
structure Droplet where
  Name : String
  IPAddress : String
  deriving DecidableEq

/-- The program's configuration file. -/
structure Config where
  ClientId : String
  ApiKey : String
  deriving DecidableEq

/-- A collaborator call. -/
inductive Call where
  /-- `sand.GetDroplets()` -/
  | GetDroplets
  /-- `exec.Command(name, args...)` run to completion -/
  | Command (name : String) (args : List String)
  deriving DecidableEq

/-- Colours of the `fancy` package. -/
inductive Color where
  | Red
  | Green
  deriving DecidableEq

/-- Something a run does that is visible from outside. -/
inductive Event where
  | call (c : Call)
  /-- text written with `fmt.Print`, `fmt.Printf` or `fmt.Println` -/
  | print (s : String)
  /-- `fancy.Println(color, s)` -/
  | fancy (color : Color) (s : String)
  /-- `fancy.Println(color, err)` -/
  | fancyErr (color : Color) (e : Error)
  deriving DecidableEq

/-- How a Go function ends: it returns a value, returns a non-nil error,
panics, or ends the process with `os.Exit`. -/
inductive Outcome (α : Type) where
  | ok (a : α)
  | err (e : Error)
  | panic (msg : String)
  | exit (code : Nat)
  deriving DecidableEq

/-- A run: how it ended and what it did, oldest event first. -/
structure Run (α : Type) where
  result : Outcome α
  events : List Event
  deriving DecidableEq

/-- The collaborators.  Within one operation no command line is issued twice,
so answers that depend only on the call lose no generality. -/
structure World where
  /-- result of opening and decoding `faucet.json` -/
  config : Except Error Config
  /-- result of `sand.GetDroplets()` -/
  GetDroplets : Except Error (List Droplet)
  /-- result of running a subprocess: its standard output, or an error -/
  Command : String → List String → Except Error String

namespace Run

/-- Sequencing: the rest runs only after a normal return. -/
def bind {α β : Type} (m : Run α) (f : α → Run β) : Run β :=
  match m.result with
  | Outcome.ok a => ⟨(f a).result, m.events ++ (f a).events⟩
  | Outcome.err e => ⟨Outcome.err e, m.events⟩
  | Outcome.panic msg => ⟨Outcome.panic msg, m.events⟩
  | Outcome.exit code => ⟨Outcome.exit code, m.events⟩

instance : Monad Run where
  pure a := ⟨Outcome.ok a, []⟩
  bind := Run.bind

/-- The statement `return err` with a non-nil error. -/
def fail {α : Type} (e : Error) : Run α := ⟨Outcome.err e, []⟩

/-- A run-time panic. -/
def crash {α : Type} (msg : String) : Run α := ⟨Outcome.panic msg, []⟩

/-- The call `os.Exit(code)`. -/
def osExit {α : Type} (code : Nat) : Run α := ⟨Outcome.exit code, []⟩

/-- One event. -/
def emit (e : Event) : Run Unit := ⟨Outcome.ok (), [e]⟩

/-- An indexing expression `xs[i]`, which panics when out of range. -/
def index {α : Type} (xs : List α) (i : Nat) : Run α :=
  match xs[i]? with
  | some x => pure x
  | none => crash "index out of range"

/-- A slice expression whose bound was computed, which panics when out of range. -/
def slice (r : Option String) : Run String :=
  match r with
  | some s => pure s
  | none => crash "slice bounds out of range"

end Run

/-- The collaborator calls among the events, in order. -/
def calls : List Event → List Call
  | [] => []
  | Event.call c :: es => c :: calls es
  | _ :: es => calls es

/-- The error a call meets in a world, if it fails there. -/
def World.failure (w : World) : Call → Option Error
  | Call.GetDroplets =>
    match w.GetDroplets with
    | Except.ok _ => none
    | Except.error e => some e
  | Call.Command name args =>
    match w.Command name args with
    | Except.ok _ => none
    | Except.error e => some e

/-- Whether a call is a remote one: `ssh` or `scp`. -/
def Call.isRemote : Call → Bool
  | Call.GetDroplets => false
  | Call.Command name _ => name == "ssh" || name == "scp"

/-- `exec.Command(name, args...)` followed by `Run()` or `Output()`: the call
is recorded and its error, if any, is returned. -/
def execCommand (w : World) (name : String) (args : List String) : Run String :=
  match w.Command name args with
  | Except.ok out => ⟨Outcome.ok out, [Event.call (Call.Command name args)]⟩
  | Except.error e => ⟨Outcome.err e, [Event.call (Call.Command name args)]⟩

/-- `sand.GetDroplets()`. -/
def getDroplets (w : World) : Run (List Droplet) :=
  match w.GetDroplets with
  | Except.ok ds => ⟨Outcome.ok ds, [Event.call Call.GetDroplets]⟩
  | Except.error e => ⟨Outcome.err e, [Event.call Call.GetDroplets]⟩

/-- `fancy.Println(fancy.Green, "OK")`. -/
def printOK : Run Unit := Run.emit (Event.fancy Color.Green "OK")

/-- Output with the `fmt` package. -/
def fmtPrint (s : String) : Run Unit := Run.emit (Event.print s)

/-! ## The program -/

/-- The loop of `dropletAddress`: the address of the first droplet, in list
order, whose name equals `name`. -/
def findAddress (name : String) : List Droplet → Option String
  | [] => none
  | d :: ds => if d.Name = name then some d.IPAddress else findAddress name ds

/-- Go `dropletAddress(name)`. -/
def dropletAddress (w : World) (name : String) : Run String := do
  fmtPrint "fetching droplet list... "
  let droplets ← getDroplets w
  printOK
  fmtPrint ("checking for " ++ name ++ "... ")
  match findAddress name droplets with
  | some ip => do
    printOK
    pure ip
  | none => Run.fail (Error.New (name ++ " not found"))

/-- The statements of `gitInfo` after the subprocess has returned: repository
name and remote address read off the output `out` of `git remote -v`. -/
def parseRemote (out : String) : Run (String × String) := do
  let tokens := Split out '\t'
  let field ← Run.index tokens 1
  let tokens := Split field ' '
  let address ← Run.index tokens 0
  let url ← Run.index tokens 0
  let tokens := Split url ':'
  let path ← Run.index tokens 1
  let name := Base path
  let name ← Run.slice (dropSuffixLen name (Ext path).data.length)
  pure (name, address)

/-- Go `gitInfo()`. -/
def gitInfo (w : World) : Run (String × String) := do
  let out ← execCommand w "git" ["remote", "-v"]
  parseRemote out

/-- The archive file name `getArchive` formats: `/tmp/<repoName>-<tag>.tar.gz`. -/
def archiveName (repoName tag : String) : String :=
  "/tmp/" ++ repoName ++ "-" ++ tag ++ ".tar.gz"

/-- Go `getArchive(tag)`. -/
def getArchive (w : World) (tag : String) : Run String := do
  fmtPrint "checking for git repo... "
  let info ← gitInfo w
  printOK
  let name := archiveName info.1 tag
  fmtPrint ("fetching archive of tag " ++ tag ++ " to " ++ name ++ "... ")
  let _ ← execCommand w "git"
    ["archive", "-o", name, "--format=tar.gz", "--remote=" ++ info.2, tag]
  printOK
  pure name

/-- Go `rm(filename, name, address)`. -/
def rm (w : World) (filename name address : String) : Run Unit := do
  let basename := Base filename
  fmtPrint ("removing " ++ name ++ ":" ++ basename ++ "... ")
  let _ ← execCommand w "ssh" ["root@" ++ address, "rm -rf " ++ basename]
  printOK

/-- Go `scp(filename, name, address)`. -/
def scp (w : World) (filename name address : String) : Run Unit := do
  let basename := Base filename
  fmtPrint ("copying " ++ filename ++ " to " ++ name ++ ":" ++ basename ++ "... ")
  let _ ← execCommand w "scp" [filename, "root@" ++ address ++ ":"]
  printOK

/-- The folder `extract` works on: the base name of the archive without its
last seven characters, the length of `.tar.gz`. -/
def extractFolder (filename : String) : Option String :=
  dropSuffixLen (Base filename) ".tar.gz".data.length

/-- Go `extract(filename, name, address)`. -/
def extract (w : World) (filename name address : String) : Run Unit := do
  let basename := Base filename
  let folder ← Run.slice (extractFolder filename)
  fmtPrint ("extracting " ++ basename ++ " to " ++ folder ++ " on " ++ name ++ "... ")
  let _ ← execCommand w "ssh" ["root@" ++ address, "rm -rf " ++ folder]
  let _ ← execCommand w "ssh" ["root@" ++ address, "mkdir " ++ folder]
  let _ ← execCommand w "ssh" ["root@" ++ address, "tar zxvf " ++ basename ++ " -C " ++ folder]
  printOK

/-- Go `status(args)`. -/
def status (w : World) (args : List String) : Run Unit :=
  match args with
  | [name] => do
    let address ← dropletAddress w name
    fmtPrint ("asking " ++ name ++ " for container list...\n")
    let _ ← execCommand w "ssh" ["root@" ++ address, "docker ps --no-trunc"]
    printOK
  | _ => Run.fail Error.ErrInvalidArgs

/-- Go `load(args)`. -/
def load (w : World) (args : List String) : Run Unit :=
  match args with
  | [name, tag] => do
    let archive ← getArchive w tag
    let address ← dropletAddress w name
    rm w archive name address
    scp w archive name address
    extract w archive name address
  | _ => Run.fail Error.ErrInvalidArgs

/-- Go `loaded(args)`. -/
def loaded (w : World) (args : List String) : Run Unit :=
  match args with
  | [name] => do
    let address ← dropletAddress w name
    fmtPrint ("asking " ++ name ++ " to list the home directory... ")
    let out ← execCommand w "ssh" ["root@" ++ address, "ls -l"]
    fmtPrint (out ++ "\n")
    printOK
  | _ => Run.fail Error.ErrInvalidArgs

/-- The folder `build` changes into: the text before the first slash of the
image reference, a dash, and the second colon-separated piece. -/
def buildFolder (image : String) : Run String := do
  let repo ← Run.index (Split image '/') 0
  let tag ← Run.index (Split image ':') 1
  pure (repo ++ "-" ++ tag)

/-- Go `build(args)`. -/
def build (w : World) (args : List String) : Run Unit :=
  match args with
  | [machine, dockerfile, image] => do
    let address ← dropletAddress w machine
    fmtPrint ("building " ++ image ++ " on " ++ machine ++ "... ")
    let folder ← buildFolder image
    let cmdStr := "cd " ++ folder ++ " && cp " ++ dockerfile ++ " . && docker build -t " ++ image ++ " ."
    let _ ← execCommand w "ssh" ["root@" ++ address, cmdStr]
    printOK
  | _ => Run.fail Error.ErrInvalidArgs

/-- Go `built(args)`. -/
def built (w : World) (args : List String) : Run Unit :=
  match args with
  | [machine] => do
    let address ← dropletAddress w machine
    fmtPrint ("asking " ++ machine ++ " for container list... ")
    let out ← execCommand w "ssh" ["root@" ++ address, "docker images"]
    printOK
    fmtPrint (out ++ "\n")
  | _ => Run.fail Error.ErrInvalidArgs

/-- Go `up(args)`. -/
def up (w : World) (args : List String) : Run Unit :=
  match args with
  | machine :: image :: first :: more => do
    let remoteCmd := Join (first :: more) " "
    let address ← dropletAddress w machine
    fmtPrint ("asking " ++ machine ++ " to run container... ")
    let out ← execCommand w "ssh"
      ["root@" ++ address, "docker run -d -p 443:10443 " ++ image ++ " " ++ remoteCmd]
    printOK
    fmtPrint (out ++ "\n")
  | _ => Run.fail Error.ErrInvalidArgs

/-- Go `down(args)`. -/
def down (w : World) (args : List String) : Run Unit :=
  match args with
  | [name, container] => do
    let address ← dropletAddress w name
    fmtPrint ("asking " ++ name ++ " to stop the container...\n")
    let _ ← execCommand w "ssh" ["root@" ++ address, "docker kill " ++ container]
    printOK
  | _ => Run.fail Error.ErrInvalidArgs

/-- The seven operations registered in `main`. -/
inductive Op where
  | load
  | loaded
  | build
  | built
  | up
  | down
  | status
  deriving DecidableEq

/-- The function registered for an operation. -/
def Op.run : Op → World → List String → Run Unit
  | Op.load => Gantry.load
  | Op.loaded => Gantry.loaded
  | Op.build => Gantry.build
  | Op.built => Gantry.built
  | Op.up => Gantry.up
  | Op.down => Gantry.down
  | Op.status => Gantry.status

/-- The argument counts the specification documents: one for status, loaded
and built, two for load and down, three for build, three or more for up. -/
def Op.arityOK : Op → Nat → Bool
  | Op.status, n => n == 1
  | Op.loaded, n => n == 1
  | Op.built, n => n == 1
  | Op.load, n => n == 2
  | Op.down, n => n == 2
  | Op.build, n => n == 3
  | Op.up, n => decide (3 ≤ n)

/-- Go `loadConfig()`: a configuration file that cannot be opened or decoded
is printed in red and ends the process with status 1. -/
def loadConfig (w : World) : Run Unit :=
  match w.config with
  | Except.ok _ => pure ()
  | Except.error e => do
    Run.emit (Event.fancyErr Color.Red e)
    Run.osExit 1

/-- The table `main` registers with the dispatcher, in registration order. -/
def commandTable (w : World) : List (String × (List String → Run Unit)) :=
  [("load", load w), ("loaded", loaded w), ("build", build w), ("built", built w),
   ("up", up w), ("down", down w), ("status", status w)]

/-- A dispatcher: given the registered table, the process arguments and the
index of the command name, it runs something and returns an error or nil. -/
abbrev Dispatcher := List (String × (List String → Run Unit)) → List String → Nat → Run Unit

/-- Go `main()`, over the dispatcher of package `cmd`: the error the dispatch
returns is printed in red, and `main` returns. -/
def main (dispatch : Dispatcher) (w : World) (osArgs : List String) : Run Unit := do
  loadConfig w
  let r := dispatch (commandTable w) osArgs 1
  match r.result with
  | Outcome.err e => ⟨Outcome.ok (), r.events ++ [Event.fancyErr Color.Red e]⟩
  | _ => r

/-- Exit status of the process given how `main` ended: 0 when `main` returns,
2 after an unrecovered panic, the argument of `os.Exit` otherwise.  Go `main`
has no result, so a run of `main` never ends in the error case; it counts as a
return. -/
def exitStatus {α : Type} : Outcome α → Nat
  | Outcome.ok _ => 0
  | Outcome.err _ => 0
  | Outcome.panic _ => 2
  | Outcome.exit code => code

/-- Modelled from the spec: the Command Dispatcher (package `cmd` of
whub/faucet, not under src/), which takes the command name from the process
arguments, routes the remaining arguments to the matching operation and
reports a usage error when there is none. -/
def Dispatch : Dispatcher := fun table osArgs start =>
  match osArgs.drop start with
  | [] => Run.fail Error.ErrInvalidArgs
  | name :: rest =>
    match table.lookup name with
    | some handler => handler rest
    | none => Run.fail Error.ErrInvalidArgs

/-- The events of `dropletAddress` up to the end of its loop. -/
def lookupEvents (name : String) : List Event :=
  [Event.print "fetching droplet list... ", Event.call Call.GetDroplets,
   Event.fancy Color.Green "OK", Event.print ("checking for " ++ name ++ "... ")]

/-- The fail-fast discipline of a run in a world: every call but the last
succeeded, a failure of the last call is what the run returns, and a run that
returns normally has seen no call fail. -/
def FailFast (w : World) {α : Type} (r : Run α) : Prop :=
  (∀ c ∈ (calls r.events).dropLast, w.failure c = none) ∧
  (∀ c e, (calls r.events).getLast? = some c → w.failure c = some e →
    r.result = Outcome.err e) ∧
  ((∃ a, r.result = Outcome.ok a) → ∀ c ∈ calls r.events, w.failure c = none)

/-- The calls of a planned sequence that a run makes when it stops at the first
call that fails: every call up to and including that one. -/
def stopAtFailure (w : World) : List Call → List Call
  | [] => []
  | c :: cs =>
    match w.failure c with
    | some _ => [c]
    | none => c :: stopAtFailure w cs

/-- The error of the first call of a planned sequence that fails, if one does. -/
def firstFailure (w : World) : List Call → Option Error
  | [] => none
  | c :: cs =>
    match w.failure c with
    | some e => some e
    | none => firstFailure w cs

/-- The steps of load in the table of the specification, as the calls they
stand for: archive production for repository `r` at remote `g` and tag `t`, the
listing, and for the address `a` the removal of the old archive, the secure
copy, and the removal, creation and filling of the folder. -/
def loadPlan (r g t a : String) : List Call :=
  [Call.Command "git" ["remote", "-v"],
   Call.Command "git" ["archive", "-o", "/tmp/" ++ r ++ "-" ++ t ++ ".tar.gz",
      "--format=tar.gz", "--remote=" ++ g, t],
   Call.GetDroplets,
   Call.Command "ssh" ["root@" ++ a, "rm -rf " ++ (r ++ "-" ++ t ++ ".tar.gz")],
   Call.Command "scp" ["/tmp/" ++ r ++ "-" ++ t ++ ".tar.gz", "root@" ++ a ++ ":"],
   Call.Command "ssh" ["root@" ++ a, "rm -rf " ++ (r ++ "-" ++ t)],
   Call.Command "ssh" ["root@" ++ a, "mkdir " ++ (r ++ "-" ++ t)],
   Call.Command "ssh" ["root@" ++ a,
      "tar zxvf " ++ (r ++ "-" ++ t ++ ".tar.gz") ++ " -C " ++ (r ++ "-" ++ t)]]

/-! ## Example worlds -/

/-- A fleet with one machine. -/
def fleet1 : List Droplet := [⟨"web-1", "1.2.3.4"⟩]

/-- Output of `git remote -v` in a clone of this repository. -/
def remoteOut : String :=
  "origin\tgit@github.com:whub/gantry.git (fetch)\norigin\tgit@github.com:whub/gantry.git (push)\n"

/-- A world in which every collaborator succeeds. -/
def goodWorld : World :=
  ⟨Except.ok ⟨"id", "key"⟩, Except.ok fleet1,
    fun name args => if name = "git" ∧ args = ["remote", "-v"] then Except.ok remoteOut
      else Except.ok ""⟩

/-- A world in which the secure copy fails and everything else succeeds. -/
def scpDownWorld : World :=
  ⟨Except.ok ⟨"id", "key"⟩, Except.ok fleet1,
    fun name args => if name = "scp" then Except.error (Error.Collab "exit status 1")
      else if name = "git" ∧ args = ["remote", "-v"] then Except.ok remoteOut
      else Except.ok ""⟩

/-- A world in which the droplet listing fails. -/
def listingDownWorld : World :=
  ⟨Except.ok ⟨"id", "key"⟩, Except.error (Error.Collab "401 Unauthorized"),
    fun name args => if name = "git" ∧ args = ["remote", "-v"] then Except.ok remoteOut
      else Except.ok ""⟩

/-- A world in which every subprocess fails and the listing succeeds. -/
def gitDownWorld : World :=
  ⟨Except.ok ⟨"id", "key"⟩, Except.ok fleet1,
    fun _ _ => Except.error (Error.Collab "exit status 128")⟩

/-- A world in which every subprocess and the listing fail. -/
def allDownWorld : World :=
  ⟨Except.ok ⟨"id", "key"⟩, Except.error (Error.Collab "401 Unauthorized"),
    fun _ _ => Except.error (Error.Collab "exit status 128")⟩

/-- A world whose working directory has no git remote: `git remote -v`
succeeds and prints nothing. -/
def noRemoteWorld : World :=
  ⟨Except.ok ⟨"id", "key"⟩, Except.ok fleet1, fun _ _ => Except.ok ""⟩

/-! ## Sequencing lemmas -/

theorem Run.bind_eq {α β : Type} (m : Run α) (f : α → Run β) : (m >>= f) = Run.bind m f := rfl

theorem Run.pure_eq {α : Type} (a : α) : (pure a : Run α) = ⟨Outcome.ok a, []⟩ := rfl

theorem Run.bind_ok {α β : Type} (a : α) (es : List Event) (f : α → Run β) :
    Run.bind ⟨Outcome.ok a, es⟩ f = ⟨(f a).result, es ++ (f a).events⟩ := rfl

theorem Run.bind_err {α β : Type} (e : Error) (es : List Event) (f : α → Run β) :
    Run.bind ⟨Outcome.err e, es⟩ f = ⟨Outcome.err e, es⟩ := rfl

theorem Run.bind_panic {α β : Type} (msg : String) (es : List Event) (f : α → Run β) :
    Run.bind ⟨Outcome.panic msg, es⟩ f = ⟨Outcome.panic msg, es⟩ := rfl

theorem Run.bind_exit {α β : Type} (code : Nat) (es : List Event) (f : α → Run β) :
    Run.bind ⟨Outcome.exit code, es⟩ f = ⟨Outcome.exit code, es⟩ := rfl

theorem dropletAddress_listed (w : World) (ds : List Droplet) (name : String)
    (h : w.GetDroplets = Except.ok ds) :
    dropletAddress w name =
      match findAddress name ds with
      | some ip => ⟨Outcome.ok ip, lookupEvents name ++ [Event.fancy Color.Green "OK"]⟩
      | none => ⟨Outcome.err (Error.New (name ++ " not found")), lookupEvents name⟩ := by
  simp only [dropletAddress, getDroplets, h, fmtPrint, printOK, Run.emit, Run.bind_eq,
    Run.bind_ok, Run.fail, lookupEvents]
  cases findAddress name ds <;> simp [Run.bind_eq, Run.bind_ok, Run.bind, Run.pure_eq]

theorem dropletAddress_failed (w : World) (e : Error) (name : String)
    (h : w.GetDroplets = Except.error e) :
    dropletAddress w name =
      ⟨Outcome.err e, [Event.print "fetching droplet list... ", Event.call Call.GetDroplets]⟩ := by
  simp [dropletAddress, getDroplets, h, fmtPrint, printOK, Run.emit, Run.bind_eq,
    Run.bind_ok, Run.bind]

/-! ## Name resolution -/

theorem findAddress_first (name : String) (pre : List Droplet) (d : Droplet) (post : List Droplet)
    (hd : d.Name = name) (hpre : ∀ x ∈ pre, x.Name ≠ name) :
    findAddress name (pre ++ d :: post) = some d.IPAddress := by
  induction pre with
  | nil => simp [findAddress, hd]
  | cons x xs ih =>
    have hx : x.Name ≠ name := hpre x (List.mem_cons_self x xs)
    simp only [List.cons_append, findAddress, hx, if_false]
    exact ih (fun y hy => hpre y (List.mem_cons_of_mem x hy))

theorem findAddress_none (name : String) (ds : List Droplet) :
    findAddress name ds = none ↔ ∀ d ∈ ds, d.Name ≠ name := by
  induction ds with
  | nil => simp [findAddress]
  | cons x xs ih =>
    by_cases hx : x.Name = name
    · simp [findAddress, hx]
    · simp [findAddress, hx, ih]

/-- C1. When the listing succeeds with the list ds, dropletAddress returns the
IPAddress of the first droplet of ds whose Name equals the name, and it returns
an error, which is then the error with text name followed by " not found",
exactly when no droplet of ds has that name. -/
theorem dropletAddress_first_match (w : World) (ds : List Droplet) (name : String)
    (h : w.GetDroplets = Except.ok ds) :
    (∀ pre d post, ds = pre ++ d :: post → d.Name = name → (∀ x ∈ pre, x.Name ≠ name) →
        (dropletAddress w name).result = Outcome.ok d.IPAddress) ∧
    ((dropletAddress w name).result = Outcome.err (Error.New (name ++ " not found")) ↔
        ∀ d ∈ ds, d.Name ≠ name) ∧
    ((∃ e, (dropletAddress w name).result = Outcome.err e) ↔ ∀ d ∈ ds, d.Name ≠ name) := by
  rw [dropletAddress_listed w ds name h]
  refine ⟨?_, ?_, ?_⟩
  · intro pre d post hds hd hpre
    rw [hds, findAddress_first name pre d post hd hpre]
  · rw [← findAddress_none]
    cases findAddress name ds <;> simp
  · rw [← findAddress_none]
    cases findAddress name ds <;> simp

/-- C1 at a two-machine fleet: the first of two droplets named web-1 wins, and
the name Web-1, which differs in case, is not found. -/
theorem dropletAddress_first_match_witness :
    (dropletAddress ⟨Except.ok ⟨"id", "key"⟩,
        Except.ok [⟨"db", "9.9.9.9"⟩, ⟨"web-1", "1.2.3.4"⟩, ⟨"web-1", "5.6.7.8"⟩],
        fun _ _ => Except.ok ""⟩ "web-1").result = Outcome.ok "1.2.3.4" ∧
    (dropletAddress ⟨Except.ok ⟨"id", "key"⟩,
        Except.ok [⟨"db", "9.9.9.9"⟩, ⟨"web-1", "1.2.3.4"⟩, ⟨"web-1", "5.6.7.8"⟩],
        fun _ _ => Except.ok ""⟩ "Web-1").result = Outcome.err (Error.New "Web-1 not found") :=
  ⟨(dropletAddress_first_match _ _ "web-1" rfl).1 [⟨"db", "9.9.9.9"⟩] ⟨"web-1", "1.2.3.4"⟩
      [⟨"web-1", "5.6.7.8"⟩] rfl rfl (by decide),
   (dropletAddress_first_match _ _ "Web-1" rfl).2.1.mpr (by decide)⟩

/-! ## Argument counts -/

/-- C3. An operation called with an argument count other than the documented
one returns ErrInvalidArgs and produces no event at all: no listing, git, ssh
or scp call, and no output. -/
theorem wrong_arity_no_call (op : Op) (w : World) (args : List String)
    (h : op.arityOK args.length = false) :
    op.run w args = ⟨Outcome.err Error.ErrInvalidArgs, []⟩ ∧
    calls (op.run w args).events = [] := by
  have key : op.run w args = ⟨Outcome.err Error.ErrInvalidArgs, []⟩ := by
    cases op <;>
      rcases args with _ | ⟨a, _ | ⟨b, _ | ⟨c, _ | ⟨d, rest⟩⟩⟩⟩ <;>
      simp [Op.arityOK] at h <;>
      rfl
  rw [key]
  exact ⟨rfl, rfl⟩

/-- C3 at concrete argument lists: load with one argument and up with two. -/
theorem wrong_arity_no_call_witness :
    (load goodWorld ["web-1"] = ⟨Outcome.err Error.ErrInvalidArgs, []⟩ ∧
      calls (load goodWorld ["web-1"]).events = []) ∧
    (up goodWorld ["web-1", "acme/app:3"] = ⟨Outcome.err Error.ErrInvalidArgs, []⟩ ∧
      calls (up goodWorld ["web-1", "acme/app:3"]).events = []) :=
  ⟨wrong_arity_no_call Op.load goodWorld ["web-1"] (by decide),
   wrong_arity_no_call Op.up goodWorld ["web-1", "acme/app:3"] (by decide)⟩

/-! ## Splitting and joining -/

theorem splitChars_ne_nil (sep : Char) (s : List Char) : splitChars sep s ≠ [] := by
  cases s with
  | nil => simp [splitChars]
  | cons c cs => by_cases h : c = sep <;> simp [splitChars, h]

theorem splitChars_no_sep (sep : Char) (s : List Char) (h : sep ∉ s) :
    splitChars sep s = [s] := by
  induction s with
  | nil => rfl
  | cons c cs ih =>
    have hc : c ≠ sep := fun e => h (by simp [e])
    have hcs : sep ∉ cs := fun e => h (List.mem_cons_of_mem c e)
    simp [splitChars, hc, ih hcs]

theorem splitChars_append (sep : Char) (a b : List Char) (h : sep ∉ a) :
    splitChars sep (a ++ sep :: b) = a :: splitChars sep b := by
  induction a with
  | nil => simp [splitChars]
  | cons c cs ih =>
    have hc : c ≠ sep := fun e => h (by simp [e])
    have hcs : sep ∉ cs := fun e => h (List.mem_cons_of_mem c e)
    simp [splitChars, hc, ih hcs]

theorem Join_eq_intercalate (elems : List String) (sep : String) :
    Join elems sep = sep.intercalate elems := by
  cases elems with
  | nil => rfl
  | cons e es =>
    simp only [Join, String.intercalate]
    induction es generalizing e with
    | nil => rfl
    | cons x xs ih => simp only [List.foldl_cons, String.intercalate.go]; exact ih _

theorem Run.index_some {α : Type} (xs : List α) (i : Nat) (x : α) (h : xs[i]? = some x) :
    Run.index xs i = ⟨Outcome.ok x, []⟩ := by
  simp [Run.index, h, Run.pure_eq]

theorem dropletAddress_resolved (w : World) (name a : String)
    (h : (dropletAddress w name).result = Outcome.ok a) :
    dropletAddress w name =
      ⟨Outcome.ok a, lookupEvents name ++ [Event.fancy Color.Green "OK"]⟩ := by
  cases hd : w.GetDroplets with
  | error e => rw [dropletAddress_failed w e name hd] at h; simp at h
  | ok ds =>
    rw [dropletAddress_listed w ds name hd] at h ⊢
    cases hf : findAddress name ds with
    | none => rw [hf] at h; simp at h
    | some ip => rw [hf] at h; simp at h; simp [h]

/-! ## Running a container -/

/-- C6. With at least three arguments and a machine name that resolves to the
address a, up makes the listing call and then exactly one remote call: ssh to
root@a with the command made of the docker run text, the image argument, one
space, and the remaining arguments joined by single spaces, unchanged. -/
theorem up_issues_docker_run (w : World) (machine image first a : String) (more : List String)
    (h : (dropletAddress w machine).result = Outcome.ok a) :
    calls (up w (machine :: image :: first :: more)).events =
      [Call.GetDroplets,
       Call.Command "ssh" ["root@" ++ a,
         "docker run -d -p 443:10443 " ++ image ++ " " ++ " ".intercalate (first :: more)]] := by
  rw [← Join_eq_intercalate]
  simp only [up, dropletAddress_resolved w machine a h, Run.bind_eq, Run.bind_ok, fmtPrint,
    printOK, Run.emit, execCommand]
  cases w.Command "ssh" ["root@" ++ a,
      "docker run -d -p 443:10443 " ++ image ++ " " ++ Join (first :: more) " "] <;>
    simp [Run.bind, lookupEvents, calls]

/-- C6 at the example of the specification, and with an argument that contains
a space, which reaches the remote command unquoted. -/
theorem up_issues_docker_run_witness :
    calls (up goodWorld ["web-1", "acme/app:3", "serve", "--port", "8080"]).events =
      [Call.GetDroplets,
       Call.Command "ssh" ["root@1.2.3.4", "docker run -d -p 443:10443 acme/app:3 serve --port 8080"]] ∧
    calls (up goodWorld ["web-1", "acme/app:3", "echo", "two words"]).events =
      [Call.GetDroplets,
       Call.Command "ssh" ["root@1.2.3.4", "docker run -d -p 443:10443 acme/app:3 echo two words"]] :=
  ⟨up_issues_docker_run goodWorld "web-1" "acme/app:3" "serve" "1.2.3.4" ["--port", "8080"]
      (by decide),
   up_issues_docker_run goodWorld "web-1" "acme/app:3" "echo" "1.2.3.4" ["two words"]
      (by decide)⟩

/-! ## Building an image -/

theorem Split_first (sep : Char) (s a : String) (b : List Char)
    (hs : s.data = a.data ++ sep :: b) (h : sep ∉ a.data) : (Split s sep)[0]? = some a := by
  simp [Split, hs, splitChars_append sep a.data b h]

theorem Split_second (sep : Char) (s b : String) (a : List Char)
    (hs : s.data = a ++ sep :: b.data) (ha : sep ∉ a) (hb : sep ∉ b.data) :
    (Split s sep)[1]? = some b := by
  simp [Split, hs, splitChars_append sep a b.data ha, splitChars_no_sep sep b.data hb]

theorem buildFolder_wellformed (repo name tag : String)
    (hr : '/' ∉ repo.data) (hrc : ':' ∉ repo.data) (hn : ':' ∉ name.data)
    (ht : ':' ∉ tag.data) :
    buildFolder (repo ++ "/" ++ name ++ ":" ++ tag) = ⟨Outcome.ok (repo ++ "-" ++ tag), []⟩ := by
  have h0 : (Split (repo ++ "/" ++ name ++ ":" ++ tag) '/')[0]? = some repo :=
    Split_first '/' _ repo (name.data ++ ':' :: tag.data)
      (by simp [String.data_append]) hr
  have h1 : (Split (repo ++ "/" ++ name ++ ":" ++ tag) ':')[1]? = some tag :=
    Split_second ':' _ tag (repo.data ++ '/' :: name.data)
      (by simp [String.data_append]) (by simp [hrc, hn]) ht
  simp only [buildFolder, Run.index_some _ _ _ h0, Run.index_some _ _ _ h1, Run.bind_eq,
    Run.bind_ok, Run.pure_eq, List.append_nil]

/-- C5. For a machine name that resolves to the address a, any dockerfile
argument d and an image reference repo/name:tag whose repo has no slash and
whose parts have no colon (which holds of every reference with exactly one slash
and one colon after it), build derives the folder repo-tag and makes the listing
call and then exactly one remote call: ssh to root@a with the command
cd repo-tag && cp d . && docker build -t repo/name:tag . -/
theorem build_issues_docker_build (w : World) (machine d repo name tag a : String)
    (h : (dropletAddress w machine).result = Outcome.ok a)
    (hr : '/' ∉ repo.data) (hrc : ':' ∉ repo.data) (hn : ':' ∉ name.data)
    (ht : ':' ∉ tag.data) :
    buildFolder (repo ++ "/" ++ name ++ ":" ++ tag) = ⟨Outcome.ok (repo ++ "-" ++ tag), []⟩ ∧
    calls (build w [machine, d, repo ++ "/" ++ name ++ ":" ++ tag]).events =
      [Call.GetDroplets,
       Call.Command "ssh" ["root@" ++ a,
         "cd " ++ (repo ++ "-" ++ tag) ++ " && cp " ++ d ++ " . && docker build -t " ++
           (repo ++ "/" ++ name ++ ":" ++ tag) ++ " ."]] := by
  refine ⟨buildFolder_wellformed repo name tag hr hrc hn ht, ?_⟩
  simp only [build, dropletAddress_resolved w machine a h, Run.bind_eq, Run.bind_ok, fmtPrint,
    printOK, Run.emit, execCommand, buildFolder_wellformed repo name tag hr hrc hn ht]
  cases w.Command "ssh" ["root@" ++ a,
      "cd " ++ (repo ++ "-" ++ tag) ++ " && cp " ++ d ++ " . && docker build -t " ++
        (repo ++ "/" ++ name ++ ":" ++ tag) ++ " ."] <;>
    simp [Run.bind, lookupEvents, calls]

/-- C5 at the example of the specification. -/
theorem build_issues_docker_build_witness :
    buildFolder "acme/app:3" = ⟨Outcome.ok "acme-3", []⟩ ∧
    calls (build goodWorld ["web-1", "Dockerfile", "acme/app:3"]).events =
      [Call.GetDroplets,
       Call.Command "ssh" ["root@1.2.3.4",
         "cd acme-3 && cp Dockerfile . && docker build -t acme/app:3 ."]] :=
  build_issues_docker_build goodWorld "web-1" "Dockerfile" "acme" "app" "3" "1.2.3.4"
    (by decide) (by decide) (by decide) (by decide) (by decide)

/-! ## Archive names and folders -/

theorem takeWhile_upto {α : Type} (p : α → Bool) (l : List α) (a : α) (rest : List α)
    (hl : ∀ x ∈ l, p x = true) (ha : p a = false) :
    List.takeWhile p (l ++ a :: rest) = l := by
  induction l with
  | nil => simp [List.takeWhile_cons, ha]
  | cons x xs ih =>
    have hx : p x = true := hl x (List.mem_cons_self x xs)
    simp only [List.cons_append, List.takeWhile_cons, hx, if_true]
    rw [ih (fun y hy => hl y (List.mem_cons_of_mem x hy))]

theorem lastElement_after_slash (pre e : List Char) (c : Char) (hc : c ≠ '/')
    (he : '/' ∉ e) : lastElement (pre ++ '/' :: (e ++ [c])) = e ++ [c] := by
  have hrev : (pre ++ '/' :: (e ++ [c])).reverse = c :: (e.reverse ++ '/' :: pre.reverse) := by
    simp
  have he2 : '/' ∉ c :: e.reverse := by
    simp only [List.mem_cons, List.mem_reverse, not_or]
    exact ⟨fun h => hc h.symm, he⟩
  unfold lastElement
  rw [hrev, List.dropWhile_cons]
  simp only [hc, decide_False, Bool.false_eq_true, if_false]
  rw [← List.cons_append, takeWhile_upto _ (c :: e.reverse) '/' pre.reverse
    (fun x hx => by
      have : x ≠ '/' := fun h => he2 (h ▸ hx)
      simp [this])
    (by simp)]
  simp

theorem Base_archiveName (r t : String) (hr : '/' ∉ r.data) (ht : '/' ∉ t.data) :
    Base (archiveName r t) = r ++ "-" ++ t ++ ".tar.gz" := by
  have hdata : (archiveName r t).data =
      ['/', 't', 'm', 'p'] ++ '/' :: ((r.data ++ '-' :: (t.data ++ ['.', 't', 'a', 'r', '.', 'g'])) ++ ['z']) := by
    simp [archiveName, String.data_append]
  have hlast : lastElement (archiveName r t).data =
      (r.data ++ '-' :: (t.data ++ ['.', 't', 'a', 'r', '.', 'g'])) ++ ['z'] := by
    rw [hdata]
    exact lastElement_after_slash _ _ 'z' (by decide) (by simp [hr, ht])
  have hne : (archiveName r t).data ≠ [] := by rw [hdata]; simp
  unfold Base
  rw [if_neg hne, hlast]
  simp [String.ext_iff, String.data_append]

theorem extractFolder_archiveName (r t : String) (hr : '/' ∉ r.data) (ht : '/' ∉ t.data) :
    extractFolder (archiveName r t) = some (r ++ "-" ++ t) := by
  unfold extractFolder
  rw [Base_archiveName r t hr ht]
  have h7 : ".tar.gz".data.length = 7 := by decide
  have hdata : (r ++ "-" ++ t ++ ".tar.gz").data = (r ++ "-" ++ t).data ++ ".tar.gz".data :=
    String.data_append _ _
  unfold dropSuffixLen
  rw [hdata, List.length_append, h7, if_pos (Nat.le_add_left _ _), Nat.add_sub_cancel,
    List.take_left]

/-- C10, as stated, fails: for the repository gantry, the image name app and
the tag release/1.0, load untars into the folder 1.0 while build changes into
the folder gantry-release/1.0. -/
theorem folders_differ_for_slash_tag :
    extractFolder (archiveName "gantry" "release/1.0") = some "1.0" ∧
    (buildFolder ("gantry" ++ "/" ++ "app" ++ ":" ++ "release/1.0")).result =
      Outcome.ok "gantry-release/1.0" ∧
    "1.0" ≠ "gantry-release/1.0" := by
  decide

/-- C10, amended. For a repository name r without slash or colon, an image
name n without colon and a tag t without slash or colon, the folder load creates
and untars into for r at t and the folder build changes into for the image
reference r/n:t are the same folder, r-t. -/
theorem load_folder_eq_build_folder (r n t : String)
    (hr : '/' ∉ r.data) (hrc : ':' ∉ r.data) (hn : ':' ∉ n.data)
    (ht : '/' ∉ t.data) (htc : ':' ∉ t.data) :
    extractFolder (archiveName r t) = some (r ++ "-" ++ t) ∧
    (buildFolder (r ++ "/" ++ n ++ ":" ++ t)).result = Outcome.ok (r ++ "-" ++ t) := by
  refine ⟨extractFolder_archiveName r t hr ht, ?_⟩
  rw [buildFolder_wellformed r n t hr hrc hn htc]

/-- C10, amended, at the repository gantry, the image name app and the tag v1.2. -/
theorem load_folder_eq_build_folder_witness :
    extractFolder (archiveName "gantry" "v1.2") = some "gantry-v1.2" ∧
    (buildFolder "gantry/app:v1.2").result = Outcome.ok "gantry-v1.2" :=
  load_folder_eq_build_folder "gantry" "app" "v1.2"
    (by decide) (by decide) (by decide) (by decide) (by decide)

/-! ## Loading code -/

theorem Run.bind_events_nil {α β : Type} (m : Run α) (f : α → Run β)
    (hm : m.events = []) (hf : ∀ a, (f a).events = []) : (Run.bind m f).events = [] := by
  unfold Run.bind
  cases h : m.result <;> simp [hm, hf]

theorem Run.index_events {α : Type} (xs : List α) (i : Nat) : (Run.index xs i).events = [] := by
  unfold Run.index
  cases xs[i]? <;> rfl

theorem Run.slice_events (r : Option String) : (Run.slice r).events = [] := by
  cases r <;> rfl

theorem parseRemote_events (out : String) : (parseRemote out).events = [] := by
  unfold parseRemote
  simp only [Run.bind_eq]
  refine Run.bind_events_nil _ _ (Run.index_events _ _) (fun _ => ?_)
  refine Run.bind_events_nil _ _ (Run.index_events _ _) (fun _ => ?_)
  refine Run.bind_events_nil _ _ (Run.index_events _ _) (fun _ => ?_)
  refine Run.bind_events_nil _ _ (Run.index_events _ _) (fun _ => ?_)
  refine Run.bind_events_nil _ _ (Run.slice_events _) (fun _ => ?_)
  rfl

theorem execCommand_ok (w : World) (name : String) (args : List String) (out : String)
    (h : w.Command name args = Except.ok out) :
    execCommand w name args = ⟨Outcome.ok out, [Event.call (Call.Command name args)]⟩ := by
  simp [execCommand, h]

theorem execCommand_error (w : World) (name : String) (args : List String) (e : Error)
    (h : w.Command name args = Except.error e) :
    execCommand w name args = ⟨Outcome.err e, [Event.call (Call.Command name args)]⟩ := by
  simp [execCommand, h]

theorem gitInfo_ok (w : World) (p : String × String)
    (h : (gitInfo w).result = Outcome.ok p) :
    gitInfo w = ⟨Outcome.ok p, [Event.call (Call.Command "git" ["remote", "-v"])]⟩ := by
  unfold gitInfo at h ⊢
  cases hc : w.Command "git" ["remote", "-v"] with
  | error e =>
    rw [execCommand_error w _ _ e hc] at h
    simp [Run.bind_eq, Run.bind_err] at h
  | ok out =>
    rw [execCommand_ok w _ _ out hc] at h ⊢
    simp only [Run.bind_eq, Run.bind_ok] at h ⊢
    rw [h, parseRemote_events]
    rfl

/-- C4, as stated, fails: in a world where every collaborator succeeds, the
calls of load web-1 v1.2 are not the seven listed ones, because the first call
is git remote -v, which comes before git archive. -/
theorem load_first_call_is_git_remote :
    calls (load goodWorld ["web-1", "v1.2"]).events ≠
      [Call.Command "git" ["archive", "-o", "/tmp/gantry-v1.2.tar.gz", "--format=tar.gz",
          "--remote=git@github.com:whub/gantry.git", "v1.2"],
       Call.GetDroplets,
       Call.Command "ssh" ["root@1.2.3.4", "rm -rf gantry-v1.2.tar.gz"],
       Call.Command "scp" ["/tmp/gantry-v1.2.tar.gz", "root@1.2.3.4:"],
       Call.Command "ssh" ["root@1.2.3.4", "rm -rf gantry-v1.2"],
       Call.Command "ssh" ["root@1.2.3.4", "mkdir gantry-v1.2"],
       Call.Command "ssh" ["root@1.2.3.4", "tar zxvf gantry-v1.2.tar.gz -C gantry-v1.2"]] ∧
    (calls (load goodWorld ["web-1", "v1.2"]).events).head? =
      some (Call.Command "git" ["remote", "-v"]) := by
  decide

/-- C4, amended. When gitInfo gives the repository name r and the remote
address g, the machine name resolves to the address a, neither r nor the tag t
contains a slash and every subprocess succeeds, load machine t returns success
and its calls are, in order: git remote -v, git archive of t to /tmp/r-t.tar.gz,
the droplet listing, ssh rm -rf r-t.tar.gz, scp of /tmp/r-t.tar.gz to root@a:,
ssh rm -rf r-t, ssh mkdir r-t and ssh tar zxvf r-t.tar.gz -C r-t, the ssh calls
all to root@a. -/
theorem load_calls (w : World) (machine t r g a : String)
    (hgit : (gitInfo w).result = Outcome.ok (r, g))
    (hres : (dropletAddress w machine).result = Outcome.ok a)
    (hr : '/' ∉ r.data) (ht : '/' ∉ t.data)
    (hall : ∀ name args, ∃ out, w.Command name args = Except.ok out) :
    (load w [machine, t]).result = Outcome.ok () ∧
    calls (load w [machine, t]).events =
      [Call.Command "git" ["remote", "-v"],
       Call.Command "git" ["archive", "-o", "/tmp/" ++ r ++ "-" ++ t ++ ".tar.gz",
          "--format=tar.gz", "--remote=" ++ g, t],
       Call.GetDroplets,
       Call.Command "ssh" ["root@" ++ a, "rm -rf " ++ (r ++ "-" ++ t ++ ".tar.gz")],
       Call.Command "scp" ["/tmp/" ++ r ++ "-" ++ t ++ ".tar.gz", "root@" ++ a ++ ":"],
       Call.Command "ssh" ["root@" ++ a, "rm -rf " ++ (r ++ "-" ++ t)],
       Call.Command "ssh" ["root@" ++ a, "mkdir " ++ (r ++ "-" ++ t)],
       Call.Command "ssh" ["root@" ++ a,
          "tar zxvf " ++ (r ++ "-" ++ t ++ ".tar.gz") ++ " -C " ++ (r ++ "-" ++ t)]] := by
  have hrun : ∀ name args, ∃ out,
      execCommand w name args = ⟨Outcome.ok out, [Event.call (Call.Command name args)]⟩ := by
    intro name args
    obtain ⟨out, h⟩ := hall name args
    exact ⟨out, execCommand_ok w name args out h⟩
  obtain ⟨o1, h1⟩ := hrun "git" ["archive", "-o", archiveName r t, "--format=tar.gz",
    "--remote=" ++ g, t]
  obtain ⟨o2, h2⟩ := hrun "ssh" ["root@" ++ a, "rm -rf " ++ (r ++ "-" ++ t ++ ".tar.gz")]
  obtain ⟨o3, h3⟩ := hrun "scp" [archiveName r t, "root@" ++ a ++ ":"]
  obtain ⟨o4, h4⟩ := hrun "ssh" ["root@" ++ a, "rm -rf " ++ (r ++ "-" ++ t)]
  obtain ⟨o5, h5⟩ := hrun "ssh" ["root@" ++ a, "mkdir " ++ (r ++ "-" ++ t)]
  obtain ⟨o6, h6⟩ := hrun "ssh" ["root@" ++ a,
    "tar zxvf " ++ (r ++ "-" ++ t ++ ".tar.gz") ++ " -C " ++ (r ++ "-" ++ t)]
  have hname : "/tmp/" ++ r ++ "-" ++ t ++ ".tar.gz" = archiveName r t := rfl
  simp only [hname, load, getArchive, rm, scp, extract, gitInfo_ok w (r, g) hgit,
    dropletAddress_resolved w machine a hres, Base_archiveName r t hr ht,
    extractFolder_archiveName r t hr ht, Run.slice, Run.pure_eq, h1, h2, h3, h4, h5, h6,
    Run.bind_eq, Run.bind_ok, fmtPrint, printOK, Run.emit, lookupEvents]
  simp [calls]
/-- C4, amended, at the example of the specification: load web-1 v1.2 in a
clone of gantry, with web-1 at 1.2.3.4. -/
theorem load_calls_witness :
    (load goodWorld ["web-1", "v1.2"]).result = Outcome.ok () ∧
    calls (load goodWorld ["web-1", "v1.2"]).events =
      [Call.Command "git" ["remote", "-v"],
       Call.Command "git" ["archive", "-o", "/tmp/gantry-v1.2.tar.gz", "--format=tar.gz",
          "--remote=git@github.com:whub/gantry.git", "v1.2"],
       Call.GetDroplets,
       Call.Command "ssh" ["root@1.2.3.4", "rm -rf gantry-v1.2.tar.gz"],
       Call.Command "scp" ["/tmp/gantry-v1.2.tar.gz", "root@1.2.3.4:"],
       Call.Command "ssh" ["root@1.2.3.4", "rm -rf gantry-v1.2"],
       Call.Command "ssh" ["root@1.2.3.4", "mkdir gantry-v1.2"],
       Call.Command "ssh" ["root@1.2.3.4", "tar zxvf gantry-v1.2.tar.gz -C gantry-v1.2"]] :=
  load_calls goodWorld "web-1" "v1.2" "gantry" "git@github.com:whub/gantry.git" "1.2.3.4"
    (by decide) (by decide) (by decide) (by decide)
    (fun name args => by
      by_cases h : name = "git" ∧ args = ["remote", "-v"]
      · exact ⟨remoteOut, by simp [goodWorld, h]⟩
      · exact ⟨"", by simp [goodWorld, h]⟩)

/-! ## Fail-fast pipelines -/

theorem calls_append (xs ys : List Event) : calls (xs ++ ys) = calls xs ++ calls ys := by
  induction xs with
  | nil => rfl
  | cons x xs ih => cases x <;> simp [calls, ih]

theorem FailFast_of_no_calls (w : World) {α : Type} (r : Run α) (h : calls r.events = []) :
    FailFast w r := by
  simp [FailFast, h]

theorem FailFast_single (w : World) {α : Type} (c : Call) (res : Outcome α)
    (h1 : ∀ e, w.failure c = some e → res = Outcome.err e)
    (h2 : (∃ a, res = Outcome.ok a) → w.failure c = none) :
    FailFast w ⟨res, [Event.call c]⟩ := by
  refine ⟨by simp [calls], ?_, ?_⟩
  · intro c2 e hc hfail
    simp only [calls, List.getLast?_singleton, Option.some.injEq] at hc
    subst hc
    exact h1 e hfail
  · intro hok c2 hc
    simp only [calls, List.mem_singleton] at hc
    subst hc
    exact h2 hok

theorem FailFast_execCommand (w : World) (name : String) (args : List String) :
    FailFast w (execCommand w name args) := by
  unfold execCommand
  cases h : w.Command name args with
  | ok out => exact FailFast_single w _ _ (by simp [World.failure, h]) (by simp [World.failure, h])
  | error e => exact FailFast_single w _ _ (by simp [World.failure, h]) (by simp)

theorem FailFast_getDroplets (w : World) : FailFast w (getDroplets w) := by
  unfold getDroplets
  cases h : w.GetDroplets with
  | ok ds => exact FailFast_single w _ _ (by simp [World.failure, h]) (by simp [World.failure, h])
  | error e => exact FailFast_single w _ _ (by simp [World.failure, h]) (by simp)

theorem FailFast_bind (w : World) {α β : Type} (m : Run α) (f : α → Run β)
    (hm : FailFast w m) (hf : ∀ a, FailFast w (f a)) : FailFast w (Run.bind m f) := by
  obtain ⟨res, evs⟩ := m
  cases res with
  | ok a =>
    have hall : ∀ c ∈ calls evs, w.failure c = none := hm.2.2 ⟨a, rfl⟩
    obtain ⟨hf1, hf2, hf3⟩ := hf a
    rw [Run.bind_ok]
    by_cases hnil : calls (f a).events = []
    · refine ⟨?_, ?_, ?_⟩
      · intro c hc
        simp only [calls_append, hnil, List.append_nil] at hc
        exact hall c (List.mem_of_mem_dropLast hc)
      · intro c e hlast hfail
        simp only [calls_append, hnil, List.append_nil] at hlast
        have hmem : c ∈ calls evs := List.mem_of_getLast?_eq_some hlast
        rw [hall c hmem] at hfail
        cases hfail
      · intro hok c hc
        simp only [calls_append, hnil, List.append_nil] at hc
        exact hall c hc
    · refine ⟨?_, ?_, ?_⟩
      · intro c hc
        simp only [calls_append, List.dropLast_append_of_ne_nil _ hnil, List.mem_append] at hc
        rcases hc with hc | hc
        · exact hall c hc
        · exact hf1 c hc
      · intro c e hlast hfail
        simp only [calls_append, List.getLast?_append_of_ne_nil _ hnil] at hlast
        exact hf2 c e hlast hfail
      · intro hok c hc
        simp only [calls_append, List.mem_append] at hc
        rcases hc with hc | hc
        · exact hall c hc
        · exact hf3 hok c hc
  | err e =>
    rw [Run.bind_err]
    refine ⟨hm.1, fun c e2 hl hfail => ?_, fun hok => ?_⟩
    · have h := hm.2.1 c e2 hl hfail
      simp only [Outcome.err.injEq] at h ⊢
      exact h
    · obtain ⟨b, hb⟩ := hok
      cases hb
  | panic msg =>
    rw [Run.bind_panic]
    refine ⟨hm.1, fun c e2 hl hfail => ?_, fun hok => ?_⟩
    · have h := hm.2.1 c e2 hl hfail
      cases h
    · obtain ⟨b, hb⟩ := hok
      cases hb
  | exit code =>
    rw [Run.bind_exit]
    refine ⟨hm.1, fun c e2 hl hfail => ?_, fun hok => ?_⟩
    · have h := hm.2.1 c e2 hl hfail
      cases h
    · obtain ⟨b, hb⟩ := hok
      cases hb
theorem FailFast_emit (w : World) (e : String) : FailFast w (fmtPrint e) :=
  FailFast_of_no_calls w _ rfl

theorem FailFast_printOK (w : World) : FailFast w printOK :=
  FailFast_of_no_calls w _ rfl

theorem FailFast_pure (w : World) {α : Type} (a : α) : FailFast w (pure a : Run α) :=
  FailFast_of_no_calls w _ rfl

theorem FailFast_fail (w : World) {α : Type} (e : Error) : FailFast w (Run.fail e : Run α) :=
  FailFast_of_no_calls w _ rfl

theorem FailFast_index (w : World) {α : Type} (xs : List α) (i : Nat) :
    FailFast w (Run.index xs i) :=
  FailFast_of_no_calls w _ (by rw [Run.index_events]; rfl)

theorem FailFast_slice (w : World) (r : Option String) : FailFast w (Run.slice r) :=
  FailFast_of_no_calls w _ (by rw [Run.slice_events]; rfl)

theorem FailFast_dropletAddress (w : World) (name : String) :
    FailFast w (dropletAddress w name) := by
  unfold dropletAddress
  simp only [Run.bind_eq]
  refine FailFast_bind w _ _ (FailFast_emit w _) (fun _ => ?_)
  refine FailFast_bind w _ _ (FailFast_getDroplets w) (fun ds => ?_)
  refine FailFast_bind w _ _ (FailFast_printOK w) (fun _ => ?_)
  refine FailFast_bind w _ _ (FailFast_emit w _) (fun _ => ?_)
  cases findAddress name ds with
  | none => exact FailFast_fail w _
  | some ip => exact FailFast_bind w _ _ (FailFast_printOK w) (fun _ => FailFast_pure w _)

theorem FailFast_parseRemote (w : World) (out : String) : FailFast w (parseRemote out) :=
  FailFast_of_no_calls w _ (by rw [parseRemote_events]; rfl)

theorem FailFast_getArchive (w : World) (tag : String) : FailFast w (getArchive w tag) := by
  unfold getArchive gitInfo
  simp only [Run.bind_eq]
  refine FailFast_bind w _ _ (FailFast_emit w _) (fun _ => ?_)
  refine FailFast_bind w _ _ (FailFast_bind w _ _ (FailFast_execCommand w _ _)
    (fun out => FailFast_parseRemote w out)) (fun _ => ?_)
  refine FailFast_bind w _ _ (FailFast_printOK w) (fun _ => ?_)
  refine FailFast_bind w _ _ (FailFast_emit w _) (fun _ => ?_)
  refine FailFast_bind w _ _ (FailFast_execCommand w _ _) (fun _ => ?_)
  exact FailFast_bind w _ _ (FailFast_printOK w) (fun _ => FailFast_pure w _)

theorem FailFast_rm (w : World) (filename name address : String) :
    FailFast w (rm w filename name address) := by
  unfold rm
  simp only [Run.bind_eq]
  refine FailFast_bind w _ _ (FailFast_emit w _) (fun _ => ?_)
  exact FailFast_bind w _ _ (FailFast_execCommand w _ _) (fun _ => FailFast_printOK w)

theorem FailFast_scp (w : World) (filename name address : String) :
    FailFast w (scp w filename name address) := by
  unfold scp
  simp only [Run.bind_eq]
  refine FailFast_bind w _ _ (FailFast_emit w _) (fun _ => ?_)
  exact FailFast_bind w _ _ (FailFast_execCommand w _ _) (fun _ => FailFast_printOK w)

theorem FailFast_extract (w : World) (filename name address : String) :
    FailFast w (extract w filename name address) := by
  unfold extract
  simp only [Run.bind_eq]
  refine FailFast_bind w _ _ (FailFast_slice w _) (fun _ => ?_)
  refine FailFast_bind w _ _ (FailFast_emit w _) (fun _ => ?_)
  refine FailFast_bind w _ _ (FailFast_execCommand w _ _) (fun _ => ?_)
  refine FailFast_bind w _ _ (FailFast_execCommand w _ _) (fun _ => ?_)
  exact FailFast_bind w _ _ (FailFast_execCommand w _ _) (fun _ => FailFast_printOK w)

theorem FailFast_buildFolder (w : World) (image : String) : FailFast w (buildFolder image) := by
  unfold buildFolder
  simp only [Run.bind_eq]
  refine FailFast_bind w _ _ (FailFast_index w _ _) (fun _ => ?_)
  exact FailFast_bind w _ _ (FailFast_index w _ _) (fun _ => FailFast_pure w _)

theorem FailFast_run (op : Op) (w : World) (args : List String) : FailFast w (op.run w args) := by
  cases op <;> simp only [Op.run]
  · unfold load
    split
    · simp only [Run.bind_eq]
      refine FailFast_bind w _ _ (FailFast_getArchive w _) (fun _ => ?_)
      refine FailFast_bind w _ _ (FailFast_dropletAddress w _) (fun _ => ?_)
      refine FailFast_bind w _ _ (FailFast_rm w _ _ _) (fun _ => ?_)
      exact FailFast_bind w _ _ (FailFast_scp w _ _ _) (fun _ => FailFast_extract w _ _ _)
    · exact FailFast_fail w _
  · unfold loaded
    split
    · simp only [Run.bind_eq]
      refine FailFast_bind w _ _ (FailFast_dropletAddress w _) (fun _ => ?_)
      refine FailFast_bind w _ _ (FailFast_emit w _) (fun _ => ?_)
      refine FailFast_bind w _ _ (FailFast_execCommand w _ _) (fun _ => ?_)
      exact FailFast_bind w _ _ (FailFast_emit w _) (fun _ => FailFast_printOK w)
    · exact FailFast_fail w _
  · unfold build
    split
    · simp only [Run.bind_eq]
      refine FailFast_bind w _ _ (FailFast_dropletAddress w _) (fun _ => ?_)
      refine FailFast_bind w _ _ (FailFast_emit w _) (fun _ => ?_)
      refine FailFast_bind w _ _ (FailFast_buildFolder w _) (fun _ => ?_)
      exact FailFast_bind w _ _ (FailFast_execCommand w _ _) (fun _ => FailFast_printOK w)
    · exact FailFast_fail w _
  · unfold built
    split
    · simp only [Run.bind_eq]
      refine FailFast_bind w _ _ (FailFast_dropletAddress w _) (fun _ => ?_)
      refine FailFast_bind w _ _ (FailFast_emit w _) (fun _ => ?_)
      refine FailFast_bind w _ _ (FailFast_execCommand w _ _) (fun _ => ?_)
      exact FailFast_bind w _ _ (FailFast_printOK w) (fun _ => FailFast_emit w _)
    · exact FailFast_fail w _
  · unfold up
    split
    · simp only [Run.bind_eq]
      refine FailFast_bind w _ _ (FailFast_dropletAddress w _) (fun _ => ?_)
      refine FailFast_bind w _ _ (FailFast_emit w _) (fun _ => ?_)
      refine FailFast_bind w _ _ (FailFast_execCommand w _ _) (fun _ => ?_)
      exact FailFast_bind w _ _ (FailFast_printOK w) (fun _ => FailFast_emit w _)
    · exact FailFast_fail w _
  · unfold down
    split
    · simp only [Run.bind_eq]
      refine FailFast_bind w _ _ (FailFast_dropletAddress w _) (fun _ => ?_)
      refine FailFast_bind w _ _ (FailFast_emit w _) (fun _ => ?_)
      exact FailFast_bind w _ _ (FailFast_execCommand w _ _) (fun _ => FailFast_printOK w)
    · exact FailFast_fail w _
  · unfold status
    split
    · simp only [Run.bind_eq]
      refine FailFast_bind w _ _ (FailFast_dropletAddress w _) (fun _ => ?_)
      refine FailFast_bind w _ _ (FailFast_emit w _) (fun _ => ?_)
      exact FailFast_bind w _ _ (FailFast_execCommand w _ _) (fun _ => FailFast_printOK w)
    · exact FailFast_fail w _

theorem Run.bind_of_err {α β : Type} (m : Run α) (f : α → Run β) (e : Error)
    (h : m.result = Outcome.err e) : Run.bind m f = ⟨Outcome.err e, m.events⟩ := by
  unfold Run.bind
  rw [h]

theorem dropletAddress_calls (w : World) (name : String) :
    calls (dropletAddress w name).events = [Call.GetDroplets] := by
  cases hd : w.GetDroplets with
  | error e => rw [dropletAddress_failed w e name hd]; rfl
  | ok ds =>
    rw [dropletAddress_listed w ds name hd]
    cases findAddress name ds <;> rfl

theorem dropletAddress_unlisted (w : World) (ds : List Droplet) (name : String)
    (h : w.GetDroplets = Except.ok ds) (hnone : ∀ d ∈ ds, d.Name ≠ name) :
    dropletAddress w name =
      ⟨Outcome.err (Error.New (name ++ " not found")), lookupEvents name⟩ := by
  rw [dropletAddress_listed w ds name h, (findAddress_none name ds).mpr hnone]

theorem dropletAddress_ok_listing (w : World) (name a : String)
    (h : (dropletAddress w name).result = Outcome.ok a) : ∃ ds, w.GetDroplets = Except.ok ds := by
  cases hd : w.GetDroplets with
  | error e => rw [dropletAddress_failed w e name hd] at h; simp at h
  | ok ds => exact ⟨ds, rfl⟩

theorem gitInfo_failed (w : World) (e : Error)
    (h : w.Command "git" ["remote", "-v"] = Except.error e) :
    gitInfo w = ⟨Outcome.err e, [Event.call (Call.Command "git" ["remote", "-v"])]⟩ := by
  unfold gitInfo
  rw [execCommand_error w _ _ e h]
  rfl

theorem gitInfo_ok_command (w : World) (p : String × String)
    (h : (gitInfo w).result = Outcome.ok p) :
    ∃ out, w.Command "git" ["remote", "-v"] = Except.ok out := by
  cases hc : w.Command "git" ["remote", "-v"] with
  | error e => rw [gitInfo_failed w e hc] at h; simp at h
  | ok out => exact ⟨out, rfl⟩

theorem lookup_err_bind (w : World) {β : Type} (name : String) (e : Error) (k : String → Run β)
    (h : (dropletAddress w name).result = Outcome.err e) :
    (Run.bind (dropletAddress w name) k).result = Outcome.err e ∧
    calls (Run.bind (dropletAddress w name) k).events = [Call.GetDroplets] := by
  rw [Run.bind_of_err _ _ e h]
  exact ⟨rfl, dropletAddress_calls w name⟩

theorem resolution_failure (op : Op) (w : World) (machine : String) (rest : List String)
    (e : Error) (hop : op ≠ Op.load) (harity : op.arityOK (machine :: rest).length = true)
    (h : (dropletAddress w machine).result = Outcome.err e) :
    (op.run w (machine :: rest)).result = Outcome.err e ∧
    calls (op.run w (machine :: rest)).events = [Call.GetDroplets] := by
  cases op <;> simp only [Op.run]
  · exact absurd rfl hop
  · rcases rest with _ | ⟨x, more⟩
    · simp only [loaded, Run.bind_eq]
      exact lookup_err_bind w machine e _ h
    · simp [Op.arityOK] at harity
  · rcases rest with _ | ⟨d, _ | ⟨image, _ | ⟨x, more⟩⟩⟩
    · simp [Op.arityOK] at harity
    · simp [Op.arityOK] at harity
    · simp only [build, Run.bind_eq]
      exact lookup_err_bind w machine e _ h
    · simp [Op.arityOK] at harity
  · rcases rest with _ | ⟨x, more⟩
    · simp only [built, Run.bind_eq]
      exact lookup_err_bind w machine e _ h
    · simp [Op.arityOK] at harity
  · rcases rest with _ | ⟨image, _ | ⟨first, more⟩⟩
    · simp [Op.arityOK] at harity
    · simp [Op.arityOK] at harity
    · simp only [up, Run.bind_eq]
      exact lookup_err_bind w machine e _ h
  · rcases rest with _ | ⟨container, _ | ⟨x, more⟩⟩
    · simp [Op.arityOK] at harity
    · simp only [down, Run.bind_eq]
      exact lookup_err_bind w machine e _ h
    · simp [Op.arityOK] at harity
  · rcases rest with _ | ⟨x, more⟩
    · simp only [status, Run.bind_eq]
      exact lookup_err_bind w machine e _ h
    · simp [Op.arityOK] at harity

theorem load_git_remote_failed (w : World) (machine t : String) (e : Error)
    (h : w.Command "git" ["remote", "-v"] = Except.error e) :
    (load w [machine, t]).result = Outcome.err e ∧
    calls (load w [machine, t]).events = [Call.Command "git" ["remote", "-v"]] := by
  simp only [load, getArchive, gitInfo_failed w e h, Run.bind_eq, Run.bind_ok, Run.bind_err,
    fmtPrint, Run.emit]
  simp [calls]

theorem load_git_archive_failed (w : World) (machine t r g : String) (e : Error)
    (hgit : (gitInfo w).result = Outcome.ok (r, g))
    (h : w.Command "git" ["archive", "-o", "/tmp/" ++ r ++ "-" ++ t ++ ".tar.gz",
      "--format=tar.gz", "--remote=" ++ g, t] = Except.error e) :
    (load w [machine, t]).result = Outcome.err e ∧
    calls (load w [machine, t]).events =
      [Call.Command "git" ["remote", "-v"],
       Call.Command "git" ["archive", "-o", "/tmp/" ++ r ++ "-" ++ t ++ ".tar.gz",
          "--format=tar.gz", "--remote=" ++ g, t]] := by
  have hname : "/tmp/" ++ r ++ "-" ++ t ++ ".tar.gz" = archiveName r t := rfl
  rw [hname] at h ⊢
  simp only [load, getArchive, gitInfo_ok w (r, g) hgit, execCommand_error w _ _ e h,
    Run.bind_eq, Run.bind_ok, Run.bind_err, fmtPrint, printOK, Run.emit]
  simp [calls]

theorem load_resolution_failed (w : World) (machine t r g out : String) (e : Error)
    (hgit : (gitInfo w).result = Outcome.ok (r, g))
    (harch : w.Command "git" ["archive", "-o", "/tmp/" ++ r ++ "-" ++ t ++ ".tar.gz",
      "--format=tar.gz", "--remote=" ++ g, t] = Except.ok out)
    (h : (dropletAddress w machine).result = Outcome.err e) :
    (load w [machine, t]).result = Outcome.err e ∧
    calls (load w [machine, t]).events =
      [Call.Command "git" ["remote", "-v"],
       Call.Command "git" ["archive", "-o", "/tmp/" ++ r ++ "-" ++ t ++ ".tar.gz",
          "--format=tar.gz", "--remote=" ++ g, t],
       Call.GetDroplets] := by
  have hname : "/tmp/" ++ r ++ "-" ++ t ++ ".tar.gz" = archiveName r t := rfl
  rw [hname] at harch ⊢
  simp only [load, getArchive, gitInfo_ok w (r, g) hgit, execCommand_ok w _ _ out harch,
    Run.bind_eq, Run.bind_ok, fmtPrint, printOK, Run.emit, Run.pure_eq]
  rw [Run.bind_of_err _ _ e h]
  refine ⟨rfl, ?_⟩
  simp only [calls_append, dropletAddress_calls]
  rfl

theorem load_stops_at_failure (w : World) (machine t r g a : String)
    (hgit : (gitInfo w).result = Outcome.ok (r, g))
    (hres : (dropletAddress w machine).result = Outcome.ok a)
    (hr : '/' ∉ r.data) (ht : '/' ∉ t.data) :
    calls (load w [machine, t]).events = stopAtFailure w (loadPlan r g t a) ∧
    (load w [machine, t]).result =
      (match firstFailure w (loadPlan r g t a) with
        | some e => Outcome.err e
        | none => Outcome.ok ()) := by
  obtain ⟨o0, h0⟩ := gitInfo_ok_command w (r, g) hgit
  obtain ⟨ds, hd⟩ := dropletAddress_ok_listing w machine a hres
  have hname : "/tmp/" ++ r ++ "-" ++ t ++ ".tar.gz" = archiveName r t := rfl
  simp only [hname, load, getArchive, rm, scp, extract, gitInfo_ok w (r, g) hgit,
    dropletAddress_resolved w machine a hres, Base_archiveName r t hr ht,
    extractFolder_archiveName r t hr ht, Run.slice, Run.pure_eq, loadPlan,
    Run.bind_eq, Run.bind_ok, fmtPrint, printOK, Run.emit, lookupEvents]
  cases h1 : w.Command "git" ["archive", "-o", archiveName r t, "--format=tar.gz",
      "--remote=" ++ g, t] with
  | error e =>
      simp [execCommand, Run.bind, calls, stopAtFailure, firstFailure, World.failure, Run.slice,
        Run.pure_eq, Base_archiveName r t hr ht, extractFolder_archiveName r t hr ht, h0, hd, h1]
  | ok o1 =>
    cases h2 : w.Command "ssh" ["root@" ++ a, "rm -rf " ++ (r ++ "-" ++ t ++ ".tar.gz")] with
    | error e =>
        simp [execCommand, Run.bind, calls, stopAtFailure, firstFailure, World.failure,
          Run.slice, Run.pure_eq, Base_archiveName r t hr ht,
          extractFolder_archiveName r t hr ht, h0, hd, h1, h2]
    | ok o2 =>
      cases h3 : w.Command "scp" [archiveName r t, "root@" ++ a ++ ":"] with
      | error e =>
          simp [execCommand, Run.bind, calls, stopAtFailure, firstFailure, World.failure,
            Run.slice, Run.pure_eq, Base_archiveName r t hr ht,
            extractFolder_archiveName r t hr ht, h0, hd, h1, h2, h3]
      | ok o3 =>
        cases h4 : w.Command "ssh" ["root@" ++ a, "rm -rf " ++ (r ++ "-" ++ t)] with
        | error e =>
            simp [execCommand, Run.bind, calls, stopAtFailure, firstFailure, World.failure,
              Run.slice, Run.pure_eq, Base_archiveName r t hr ht,
              extractFolder_archiveName r t hr ht, h0, hd, h1, h2, h3, h4]
        | ok o4 =>
          cases h5 : w.Command "ssh" ["root@" ++ a, "mkdir " ++ (r ++ "-" ++ t)] with
          | error e =>
              simp [execCommand, Run.bind, calls, stopAtFailure, firstFailure, World.failure,
                Run.slice, Run.pure_eq, Base_archiveName r t hr ht,
                extractFolder_archiveName r t hr ht, h0, hd, h1, h2, h3, h4, h5]
          | ok o5 =>
            cases h6 : w.Command "ssh" ["root@" ++ a,
      "tar zxvf " ++ (r ++ "-" ++ t ++ ".tar.gz") ++ " -C " ++ (r ++ "-" ++ t)] with
            | error e =>
                simp [execCommand, Run.bind, calls, stopAtFailure, firstFailure, World.failure,
                  Run.slice, Run.pure_eq, Base_archiveName r t hr ht,
                  extractFolder_archiveName r t hr ht, h0, hd, h1, h2, h3, h4, h5, h6]
            | ok o6 =>
                simp [execCommand, Run.bind, calls, stopAtFailure, firstFailure, World.failure,
                  Run.slice, Run.pure_eq, Base_archiveName r t hr ht,
                  extractFolder_archiveName r t hr ht, h0, hd, h1, h2, h3, h4, h5, h6]

/-- C2, as stated, fails for load, which produces the archive before it
resolves the machine name. Where git and the listing both fail, load returns
the error of git remote -v and not the error of the listing, which it never
calls; where git fails and the machine web-9 is not listed, load returns the
error of git and not the not found error. -/
theorem load_returns_git_error_first :
    (load allDownWorld ["web-1", "v1.2"]).result = Outcome.err (Error.Collab "exit status 128") ∧
    (load allDownWorld ["web-1", "v1.2"]).result ≠
      Outcome.err (Error.Collab "401 Unauthorized") ∧
    calls (load allDownWorld ["web-1", "v1.2"]).events =
      [Call.Command "git" ["remote", "-v"]] ∧
    (load gitDownWorld ["web-9", "v1.2"]).result = Outcome.err (Error.Collab "exit status 128") ∧
    (load gitDownWorld ["web-9", "v1.2"]).result ≠
      Outcome.err (Error.New "web-9 not found") ∧
    calls (load gitDownWorld ["web-9", "v1.2"]).events =
      [Call.Command "git" ["remote", "-v"]] := by
  decide

/-- C2, amended. Every operation is fail-fast: a collaborator call that fails
is the last call of the run, and the operation returns its error unchanged
(first part). When the listing fails or no droplet has the machine name,
loaded, build, built, up, down and status, called with their documented
argument count, return that error having made the listing call and no other
(second part). For load, archive production comes first: a failing git remote -v
or git archive ends the run with that error, before any listing, ssh or scp
call (third and fourth part); once archive production has succeeded, a failing
listing or an unlisted machine name makes load return that error after the
listing call, with no ssh or scp call (fifth part); and once the name resolves,
the calls of load are its eight planned calls up to and including the first one
that fails, whose error it returns, or all eight and success (sixth part). -/
theorem operations_fail_fast (w : World) :
    (∀ (op : Op) (args : List String) (pre : List Call) (c : Call) (post : List Call)
        (e : Error),
        calls (op.run w args).events = pre ++ c :: post → w.failure c = some e →
        post = [] ∧ (op.run w args).result = Outcome.err e) ∧
    (∀ (op : Op) (machine : String) (rest : List String), op ≠ Op.load →
        op.arityOK (machine :: rest).length = true →
        (∀ e, w.GetDroplets = Except.error e →
          (op.run w (machine :: rest)).result = Outcome.err e ∧
          calls (op.run w (machine :: rest)).events = [Call.GetDroplets]) ∧
        (∀ ds, w.GetDroplets = Except.ok ds → (∀ d ∈ ds, d.Name ≠ machine) →
          (op.run w (machine :: rest)).result =
            Outcome.err (Error.New (machine ++ " not found")) ∧
          calls (op.run w (machine :: rest)).events = [Call.GetDroplets])) ∧
    (∀ (machine t : String) (e : Error),
        w.Command "git" ["remote", "-v"] = Except.error e →
        (load w [machine, t]).result = Outcome.err e ∧
        calls (load w [machine, t]).events = [Call.Command "git" ["remote", "-v"]]) ∧
    (∀ (machine t r g : String) (e : Error), (gitInfo w).result = Outcome.ok (r, g) →
        w.Command "git" ["archive", "-o", "/tmp/" ++ r ++ "-" ++ t ++ ".tar.gz",
          "--format=tar.gz", "--remote=" ++ g, t] = Except.error e →
        (load w [machine, t]).result = Outcome.err e ∧
        calls (load w [machine, t]).events =
          [Call.Command "git" ["remote", "-v"],
           Call.Command "git" ["archive", "-o", "/tmp/" ++ r ++ "-" ++ t ++ ".tar.gz",
              "--format=tar.gz", "--remote=" ++ g, t]]) ∧
    (∀ (machine t r g out : String), (gitInfo w).result = Outcome.ok (r, g) →
        w.Command "git" ["archive", "-o", "/tmp/" ++ r ++ "-" ++ t ++ ".tar.gz",
          "--format=tar.gz", "--remote=" ++ g, t] = Except.ok out →
        (∀ e, w.GetDroplets = Except.error e →
          (load w [machine, t]).result = Outcome.err e ∧
          calls (load w [machine, t]).events =
            [Call.Command "git" ["remote", "-v"],
             Call.Command "git" ["archive", "-o", "/tmp/" ++ r ++ "-" ++ t ++ ".tar.gz",
                "--format=tar.gz", "--remote=" ++ g, t],
             Call.GetDroplets]) ∧
        (∀ ds, w.GetDroplets = Except.ok ds → (∀ d ∈ ds, d.Name ≠ machine) →
          (load w [machine, t]).result = Outcome.err (Error.New (machine ++ " not found")) ∧
          calls (load w [machine, t]).events =
            [Call.Command "git" ["remote", "-v"],
             Call.Command "git" ["archive", "-o", "/tmp/" ++ r ++ "-" ++ t ++ ".tar.gz",
                "--format=tar.gz", "--remote=" ++ g, t],
             Call.GetDroplets])) ∧
    (∀ (machine t r g a : String), (gitInfo w).result = Outcome.ok (r, g) →
        (dropletAddress w machine).result = Outcome.ok a → '/' ∉ r.data → '/' ∉ t.data →
        calls (load w [machine, t]).events = stopAtFailure w (loadPlan r g t a) ∧
        (load w [machine, t]).result =
          (match firstFailure w (loadPlan r g t a) with
            | some e => Outcome.err e
            | none => Outcome.ok ())) := by
  refine ⟨?_, ?_, ?_, ?_, ?_, ?_⟩
  · intro op args pre c post e hcalls hfail
    obtain ⟨h1, h2, _⟩ := FailFast_run op w args
    have hpost : post = [] := by
      by_contra hne
      have hmem : c ∈ (calls (op.run w args).events).dropLast := by
        rw [hcalls]
        have hsplit : pre ++ c :: post = (pre ++ [c]) ++ post := by simp
        rw [hsplit, List.dropLast_append_of_ne_nil _ hne]
        simp
      rw [h1 c hmem] at hfail
      cases hfail
    subst hpost
    refine ⟨rfl, h2 c e ?_ hfail⟩
    rw [hcalls]
    simp
  · intro op machine rest hop harity
    refine ⟨fun e hw => ?_, fun ds hw hnone => ?_⟩
    · exact resolution_failure op w machine rest e hop harity
        (by rw [dropletAddress_failed w e machine hw])
    · exact resolution_failure op w machine rest _ hop harity
        (by rw [dropletAddress_unlisted w ds machine hw hnone])
  · intro machine t e h
    exact load_git_remote_failed w machine t e h
  · intro machine t r g e hgit h
    exact load_git_archive_failed w machine t r g e hgit h
  · intro machine t r g out hgit harch
    refine ⟨fun e hw => ?_, fun ds hw hnone => ?_⟩
    · exact load_resolution_failed w machine t r g out e hgit harch
        (by rw [dropletAddress_failed w e machine hw])
    · exact load_resolution_failed w machine t r g out _ hgit harch
        (by rw [dropletAddress_unlisted w ds machine hw hnone])
  · intro machine t r g a hgit hres hr ht
    exact load_stops_at_failure w machine t r g a hgit hres hr ht

/-- C2, amended, at five runs: load stops at a failing secure copy, after five
of its eight calls, and returns its error; status returns the error of a failing
listing and up of an unlisted machine returns the not found error, both after
the listing call alone; load returns the error of a failing git remote -v after
that call alone; load of an unlisted machine returns the not found error after
the two git calls and the listing. -/
theorem operations_fail_fast_witness :
    (calls (load scpDownWorld ["web-1", "v1.2"]).events =
        [Call.Command "git" ["remote", "-v"],
         Call.Command "git" ["archive", "-o", "/tmp/gantry-v1.2.tar.gz", "--format=tar.gz",
            "--remote=git@github.com:whub/gantry.git", "v1.2"],
         Call.GetDroplets,
         Call.Command "ssh" ["root@1.2.3.4", "rm -rf gantry-v1.2.tar.gz"],
         Call.Command "scp" ["/tmp/gantry-v1.2.tar.gz", "root@1.2.3.4:"]] ∧
      (load scpDownWorld ["web-1", "v1.2"]).result =
        Outcome.err (Error.Collab "exit status 1")) ∧
    ((status listingDownWorld ["web-1"]).result =
        Outcome.err (Error.Collab "401 Unauthorized") ∧
      calls (status listingDownWorld ["web-1"]).events = [Call.GetDroplets]) ∧
    ((up goodWorld ["web-2", "acme/app:3", "serve"]).result =
        Outcome.err (Error.New "web-2 not found") ∧
      calls (up goodWorld ["web-2", "acme/app:3", "serve"]).events = [Call.GetDroplets]) ∧
    ((load gitDownWorld ["web-1", "v1.2"]).result =
        Outcome.err (Error.Collab "exit status 128") ∧
      calls (load gitDownWorld ["web-1", "v1.2"]).events =
        [Call.Command "git" ["remote", "-v"]]) ∧
    ((load goodWorld ["web-2", "v1.2"]).result = Outcome.err (Error.New "web-2 not found") ∧
      calls (load goodWorld ["web-2", "v1.2"]).events =
        [Call.Command "git" ["remote", "-v"],
         Call.Command "git" ["archive", "-o", "/tmp/gantry-v1.2.tar.gz", "--format=tar.gz",
            "--remote=git@github.com:whub/gantry.git", "v1.2"],
         Call.GetDroplets]) :=
  ⟨(operations_fail_fast scpDownWorld).2.2.2.2.2 "web-1" "v1.2" "gantry"
      "git@github.com:whub/gantry.git" "1.2.3.4" (by decide) (by decide) (by decide)
      (by decide),
   ((operations_fail_fast listingDownWorld).2.1 Op.status "web-1" [] (by decide)
      (by decide)).1 (Error.Collab "401 Unauthorized") rfl,
   ((operations_fail_fast goodWorld).2.1 Op.up "web-2" ["acme/app:3", "serve"] (by decide)
      (by decide)).2 fleet1 rfl (by decide),
   (operations_fail_fast gitDownWorld).2.2.1 "web-1" "v1.2" (Error.Collab "exit status 128")
      rfl,
   ((operations_fail_fast goodWorld).2.2.2.2.1 "web-2" "v1.2" "gantry"
      "git@github.com:whub/gantry.git" "" (by decide) rfl).2 fleet1 rfl (by decide)⟩
/-! ## Image references that are not well formed -/

theorem splitChars_head (sep : Char) (s : List Char) :
    (splitChars sep s)[0]? = some (s.takeWhile (fun c => c ≠ sep)) := by
  induction s with
  | nil => simp [splitChars]
  | cons c cs ih =>
    by_cases h : c = sep
    · simp [splitChars, h]
    · have hne := splitChars_ne_nil sep cs
      cases hs : splitChars sep cs with
      | nil => exact absurd hs hne
      | cons x xs =>
        rw [hs] at ih
        simp at ih
        simp [splitChars, h, hs, List.takeWhile_cons, ih]

theorem splitChars_tail (sep : Char) (s : List Char) (h : sep ∈ s) :
    (splitChars sep s).tail = splitChars sep (s.dropWhile (fun c => c ≠ sep)).tail := by
  induction s with
  | nil => simp at h
  | cons c cs ih =>
    by_cases hc : c = sep
    · simp [splitChars, hc, List.dropWhile_cons]
    · have hcs : sep ∈ cs := by
        rcases List.mem_cons.mp h with h1 | h1
        · exact absurd h1.symm hc
        · exact h1
      simp [splitChars, hc, List.dropWhile_cons, ih hcs]

theorem splitChars_second (sep : Char) (s : List Char) (h : sep ∈ s) :
    (splitChars sep s)[1]? =
      some ((s.dropWhile (fun c => c ≠ sep)).tail.takeWhile (fun c => c ≠ sep)) := by
  have h1 : (splitChars sep s)[1]? = (splitChars sep s).tail[0]? := by
    cases splitChars sep s <;> simp
  rw [h1, splitChars_tail sep s h, splitChars_head]

theorem buildFolder_of_colon (image : String) (h : ':' ∈ image.data) :
    buildFolder image =
      ⟨Outcome.ok (String.mk (image.data.takeWhile (fun c => c ≠ '/')) ++ "-" ++
        String.mk ((image.data.dropWhile (fun c => c ≠ ':')).tail.takeWhile
          (fun c => c ≠ ':'))), []⟩ := by
  have h0 : (Split image '/')[0]? = some (String.mk (image.data.takeWhile (fun c => c ≠ '/'))) := by
    simp only [Split, List.getElem?_map, splitChars_head, Option.map_some']
  have h1 : (Split image ':')[1]? = some (String.mk
      ((image.data.dropWhile (fun c => c ≠ ':')).tail.takeWhile (fun c => c ≠ ':'))) := by
    simp only [Split, List.getElem?_map, splitChars_second ':' image.data h, Option.map_some']
  simp only [buildFolder, Run.index_some _ _ _ h0, Run.index_some _ _ _ h1, Run.bind_eq,
    Run.bind_ok, Run.pure_eq, List.append_nil]

theorem up_resolved (w : World) (machine image first a : String) (more : List String)
    (h : (dropletAddress w machine).result = Outcome.ok a) :
    (up w (machine :: image :: first :: more)).result =
      (match w.Command "ssh" ["root@" ++ a,
          "docker run -d -p 443:10443 " ++ image ++ " " ++ " ".intercalate (first :: more)] with
        | Except.ok _ => Outcome.ok ()
        | Except.error e => Outcome.err e) ∧
    calls (up w (machine :: image :: first :: more)).events =
      [Call.GetDroplets,
       Call.Command "ssh" ["root@" ++ a,
         "docker run -d -p 443:10443 " ++ image ++ " " ++ " ".intercalate (first :: more)]] := by
  rw [← Join_eq_intercalate]
  simp only [up, dropletAddress_resolved w machine a h, Run.bind_eq, Run.bind_ok, fmtPrint,
    printOK, Run.emit, execCommand]
  cases w.Command "ssh" ["root@" ++ a,
      "docker run -d -p 443:10443 " ++ image ++ " " ++ Join (first :: more) " "] <;>
    simp [Run.bind, lookupEvents, calls]

theorem build_resolved (w : World) (machine d image folder a : String)
    (h : (dropletAddress w machine).result = Outcome.ok a)
    (hf : buildFolder image = ⟨Outcome.ok folder, []⟩) :
    (build w [machine, d, image]).result =
      (match w.Command "ssh" ["root@" ++ a,
          "cd " ++ folder ++ " && cp " ++ d ++ " . && docker build -t " ++ image ++ " ."] with
        | Except.ok _ => Outcome.ok ()
        | Except.error e => Outcome.err e) ∧
    calls (build w [machine, d, image]).events =
      [Call.GetDroplets,
       Call.Command "ssh" ["root@" ++ a,
         "cd " ++ folder ++ " && cp " ++ d ++ " . && docker build -t " ++ image ++ " ."]] := by
  simp only [build, dropletAddress_resolved w machine a h, Run.bind_eq, Run.bind_ok, fmtPrint,
    printOK, Run.emit, execCommand, hf]
  cases w.Command "ssh" ["root@" ++ a,
      "cd " ++ folder ++ " && cp " ++ d ++ " . && docker build -t " ++ image ++ " ."] <;>
    simp [Run.bind, lookupEvents, calls]

/-- C7, as stated, fails: up runs the image reference app, which has neither
slash nor colon, and build guesses the folder acme:3-3 for the reference acme:3,
which has no slash; both issue their remote command and return success. -/
theorem malformed_image_runs :
    (up goodWorld ["web-1", "app", "serve"]).result = Outcome.ok () ∧
    calls (up goodWorld ["web-1", "app", "serve"]).events =
      [Call.GetDroplets,
       Call.Command "ssh" ["root@1.2.3.4", "docker run -d -p 443:10443 app serve"]] ∧
    (build goodWorld ["web-1", "Dockerfile", "acme:3"]).result = Outcome.ok () ∧
    calls (build goodWorld ["web-1", "Dockerfile", "acme:3"]).events =
      [Call.GetDroplets,
       Call.Command "ssh" ["root@1.2.3.4",
         "cd acme:3-3 && cp Dockerfile . && docker build -t acme:3 ."]] := by
  decide

/-- C7, amended. Neither up nor build validates the image reference. For a
machine name that resolves to the address a, up makes exactly one remote call
whatever the image argument is, with the image argument unchanged in the docker
run command, and returns what that call returns. For an image reference that
contains a colon, build makes exactly one remote call, with the folder made of
the text before the first slash (the whole reference when it has none), a dash,
and the text between the first colon and the next one (or the end), and returns
what that call returns. -/
theorem image_reference_not_validated (w : World) (machine a : String)
    (h : (dropletAddress w machine).result = Outcome.ok a) :
    (∀ image first more,
      (up w (machine :: image :: first :: more)).result =
        (match w.Command "ssh" ["root@" ++ a,
            "docker run -d -p 443:10443 " ++ image ++ " " ++ " ".intercalate (first :: more)] with
          | Except.ok _ => Outcome.ok ()
          | Except.error e => Outcome.err e) ∧
      calls (up w (machine :: image :: first :: more)).events =
        [Call.GetDroplets,
         Call.Command "ssh" ["root@" ++ a,
           "docker run -d -p 443:10443 " ++ image ++ " " ++ " ".intercalate (first :: more)]]) ∧
    (∀ d image, ':' ∈ image.data →
      (build w [machine, d, image]).result =
        (match w.Command "ssh" ["root@" ++ a,
            "cd " ++ (String.mk (image.data.takeWhile (fun c => c ≠ '/')) ++ "-" ++
                String.mk ((image.data.dropWhile (fun c => c ≠ ':')).tail.takeWhile
                  (fun c => c ≠ ':'))) ++
              " && cp " ++ d ++ " . && docker build -t " ++ image ++ " ."] with
          | Except.ok _ => Outcome.ok ()
          | Except.error e => Outcome.err e) ∧
      calls (build w [machine, d, image]).events =
        [Call.GetDroplets,
         Call.Command "ssh" ["root@" ++ a,
           "cd " ++ (String.mk (image.data.takeWhile (fun c => c ≠ '/')) ++ "-" ++
                String.mk ((image.data.dropWhile (fun c => c ≠ ':')).tail.takeWhile
                  (fun c => c ≠ ':'))) ++
              " && cp " ++ d ++ " . && docker build -t " ++ image ++ " ."]]) := by
  refine ⟨fun image first more => up_resolved w machine image first a more h, ?_⟩
  intro d image hcolon
  exact build_resolved w machine d image _ a h (buildFolder_of_colon image hcolon)

/-- C7, amended, at the image references app:1:2 for up and a:b:c for build. -/
theorem image_reference_not_validated_witness :
    ((up goodWorld ["web-1", "app:1:2", "serve"]).result = Outcome.ok () ∧
      calls (up goodWorld ["web-1", "app:1:2", "serve"]).events =
        [Call.GetDroplets,
         Call.Command "ssh" ["root@1.2.3.4", "docker run -d -p 443:10443 app:1:2 serve"]]) ∧
    ((build goodWorld ["web-1", "Dockerfile", "a:b:c"]).result = Outcome.ok () ∧
      calls (build goodWorld ["web-1", "Dockerfile", "a:b:c"]).events =
        [Call.GetDroplets,
         Call.Command "ssh" ["root@1.2.3.4",
           "cd a:b:c-b && cp Dockerfile . && docker build -t a:b:c ."]]) :=
  ⟨(image_reference_not_validated goodWorld "web-1" "1.2.3.4" (by decide)).1
      "app:1:2" "serve" [],
   (image_reference_not_validated goodWorld "web-1" "1.2.3.4" (by decide)).2
      "Dockerfile" "a:b:c" (by decide)⟩

/-! ## Unparseable git remotes -/

/-- C8 on the code: when git remote -v prints nothing, gitInfo does not return
an error but panics on the index expression tokens[1], and so does load, after
the single call git remote -v; the same happens for an output without a tab and
for a URL without a colon. -/
theorem gitInfo_panics_on_unparseable_remote :
    gitInfo noRemoteWorld =
      ⟨Outcome.panic "index out of range", [Event.call (Call.Command "git" ["remote", "-v"])]⟩ ∧
    (load noRemoteWorld ["web-1", "v1.2"]).result = Outcome.panic "index out of range" ∧
    calls (load noRemoteWorld ["web-1", "v1.2"]).events = [Call.Command "git" ["remote", "-v"]] ∧
    (parseRemote "origin /srv/git/gantry.git (fetch)\n").result =
      Outcome.panic "index out of range" ∧
    (parseRemote "origin\t/srv/git/gantry.git (fetch)\n").result =
      Outcome.panic "index out of range" := by
  decide

/-! ## The exit status -/

/-- C9 on the code: whatever the dispatcher is, when the configuration loads
and the dispatch returns the error e, main prints e in red as its last event
and returns, so that the process ends with exit status 0. -/
theorem main_returns_after_error (dispatch : Dispatcher) (w : World) (osArgs : List String)
    (cfg : Config) (e : Error) (hcfg : w.config = Except.ok cfg)
    (herr : (dispatch (commandTable w) osArgs 1).result = Outcome.err e) :
    (main dispatch w osArgs).events.getLast? = some (Event.fancyErr Color.Red e) ∧
    (main dispatch w osArgs).result = Outcome.ok () ∧
    exitStatus (main dispatch w osArgs).result = 0 := by
  simp only [main, loadConfig, hcfg, Run.bind_eq, Run.pure_eq, Run.bind_ok, herr, exitStatus]
  simp

/-- C9 on the code, at the command line gantry status, which lacks the machine
name: the error ErrInvalidArgs is printed and the exit status is 0. -/
theorem main_returns_after_error_witness :
    (main Dispatch goodWorld ["gantry", "status"]).events.getLast? =
      some (Event.fancyErr Color.Red Error.ErrInvalidArgs) ∧
    (main Dispatch goodWorld ["gantry", "status"]).result = Outcome.ok () ∧
    exitStatus (main Dispatch goodWorld ["gantry", "status"]).result = 0 :=
  main_returns_after_error Dispatch goodWorld ["gantry", "status"] ⟨"id", "key"⟩
    Error.ErrInvalidArgs rfl (by decide)

end Gantry
